import Mathlib

/-!
Verification of the observable-store pattern of `react-map`
(`src/components/01-basic-components.tsx`): the counter store
`createCounterStore` (lines 397-439) and the online-status store
`createOnlineStore` (lines 276-312).

The listener collection in both stores is a JavaScript `Set<() => void>`.
We model it by the ECMAScript internal `[[SetData]]` list of slots:
`add` appends a new slot when the element is absent, `delete` blanks the
slot to `none` (so that an iteration in progress skips it), and
`forEach` walks the slot list by index, re-reading the length at every
step, so that elements appended during the walk are still visited.
Listener callbacks are identified by natural numbers (function identity).
-/

/-- ECMAScript `[[SetData]]`: a list of slots; `none` is a deleted slot. -/
abbrev SetData := List (Option Nat)

/-- `Set.prototype.add`: appends the element when absent, otherwise no-op. -/
def addS (xs : SetData) (x : Nat) : SetData :=
  if some x ∈ xs then xs else xs ++ [some x]

/-- `Set.prototype.delete`: blanks every slot holding the element. -/
def delS (xs : SetData) (x : Nat) : SetData :=
  xs.map fun o => if o = some x then none else o

/-- The ids held by the slot list, in iteration order: what a `forEach`
over the set visits when the callbacks do not mutate the set. -/
def forEachLog : SetData → List Nat
  | [] => []
  | none :: rest => forEachLog rest
  | some l :: rest => l :: forEachLog rest

/-- One primitive effect a listener callback may perform on the store
when invoked: subscribe a callback, run an unsubscribe handle for a
callback, raise an exception, or do nothing. -/
inductive LAct where
  | sub (l : Nat)
  | unsub (l : Nat)
  | lthrow
  | lnoop
deriving DecidableEq, Repr

/-- State of the counter store `createCounterStore`: the closure variable
`count`, the `listeners` set, and a log recording each listener
invocation (the id of the invoked callback, in call order). -/
structure CounterSt where
  count : Int
  listeners : SetData
  log : List Nat
deriving DecidableEq, Repr

/-- Run a listener body: a sequence of effects on the store state.
Returns the updated state and whether the body raised. `sub`/`unsub`
act on the `listeners` set exactly as the closures handed out by
`subscribe` do; `lthrow` aborts the body and signals the exception. -/
def runActs : List LAct → CounterSt → CounterSt × Bool
  | [], s => (s, false)
  | LAct.sub l :: rest, s => runActs rest { s with listeners := addS s.listeners l }
  | LAct.unsub l :: rest, s => runActs rest { s with listeners := delS s.listeners l }
  | LAct.lthrow :: _, s => (s, true)
  | LAct.lnoop :: rest, s => runActs rest s

/-- `listeners.forEach((listener) => listener())` per the ECMAScript
specification of `Set.prototype.forEach`: walk the slot list by index,
re-reading the length each step (so slots appended by a callback during
the walk are visited), skipping blanked slots (so elements deleted by a
callback before being visited are skipped), and rethrowing immediately
when a callback raises (the remaining slots are not visited).
`beh` gives each callback id its body; `fuel` bounds the walk (a callback
that keeps subscribing fresh callbacks loops forever in JavaScript, so
no total Lean function can avoid a bound; every theorem below supplies
fuel that is not exhausted). Invoking a callback appends its id to the
log before running its body. -/
def forEachGo (beh : Nat → List LAct) : Nat → Nat → CounterSt → CounterSt × Bool
  | 0, _, s => (s, false)
  | fuel + 1, i, s =>
    match s.listeners[i]? with
    | none => (s, false)
    | some none => forEachGo beh fuel (i + 1) s
    | some (some l) =>
      match runActs (beh l) { s with log := s.log ++ [l] } with
      | (s2, true) => (s2, true)
      | (s2, false) => forEachGo beh fuel (i + 1) s2

/-- `notifyListeners` of `createCounterStore`. -/
def notifyListeners (beh : Nat → List LAct) (fuel : Nat) (s : CounterSt) :
    CounterSt × Bool :=
  forEachGo beh fuel 0 s

/-- The three update operations of the counter store. -/
inductive Op where
  | inc
  | dec
  | reset
deriving DecidableEq, Repr

/-- The mutator each operation folds over the value: `+1`, `-1`,
constantly `0`. -/
def applyMut : Op → Int → Int
  | Op.inc, v => v + 1
  | Op.dec, v => v - 1
  | Op.reset, _ => 0

/-- `increment` / `decrement` / `reset`: mutate `count`, then call
`notifyListeners`. The returned flag reports an exception escaping the
operation (a listener raising propagates out of the update in the
source, since `Set.forEach` rethrows). -/
def runOp (beh : Nat → List LAct) (fuel : Nat) : Op → CounterSt → CounterSt × Bool
  | Op.inc, s => notifyListeners beh fuel { s with count := s.count + 1 }
  | Op.dec, s => notifyListeners beh fuel { s with count := s.count - 1 }
  | Op.reset, s => notifyListeners beh fuel { s with count := 0 }

/-- Run a sequence of update operations, stopping when one of them lets
an exception escape. -/
def runOps (beh : Nat → List LAct) (fuel : Nat) : List Op → CounterSt → CounterSt × Bool
  | [], s => (s, false)
  | op :: rest, s =>
    match runOp beh fuel op s with
    | (s1, true) => (s1, true)
    | (s1, false) => runOps beh fuel rest s1

/-- `subscribe(listener)` of the counter store: `listeners.add(listener)`. -/
def subscribe (l : Nat) (s : CounterSt) : CounterSt :=
  { s with listeners := addS s.listeners l }

/-- The unsubscribe handle returned by `subscribe`:
`() => listeners.delete(listener)`. -/
def unsubscribeH (l : Nat) (s : CounterSt) : CounterSt :=
  { s with listeners := delS s.listeners l }

/-- `getSnapshot()` of the counter store: returns `count`. -/
def getSnapshot (s : CounterSt) : Int :=
  s.count

/-- The store as `createCounterStore` builds it: `count = 0`, no
listeners, nothing invoked yet. -/
def initialStore : CounterSt :=
  { count := 0, listeners := [], log := [] }

/-- A notification pass over an empty listener set does nothing and
raises nothing. -/
theorem notifyListeners_nil (beh : Nat → List LAct) (fuel : Nat) (s : CounterSt)
    (h : s.listeners = []) : notifyListeners beh fuel s = (s, false) := by
  cases fuel with
  | zero => rfl
  | succ n => simp [notifyListeners, forEachGo, h]

/-- With no listeners, a sequence of operations folds the mutators over
the count and never raises. -/
theorem runOps_no_listeners (beh : Nat → List LAct) (fuel : Nat) (ops : List Op) :
    ∀ c lg, runOps beh fuel ops { count := c, listeners := [], log := lg }
      = ({ count := ops.foldl (fun v op => applyMut op v) c, listeners := [], log := lg },
         false) := by
  induction ops with
  | nil => intro c lg; rfl
  | cons op rest ih =>
    intro c lg
    have h : runOp beh fuel op { count := c, listeners := [], log := lg }
        = ({ count := applyMut op c, listeners := [], log := lg }, false) := by
      cases op <;> simp [runOp, applyMut, notifyListeners_nil]
    simp [runOps, h, ih]

/-- `forEachLog` turns a slot list with no deleted slots back into the
underlying ids. -/
theorem forEachLog_map_some (xs : List Nat) : forEachLog (xs.map some) = xs := by
  induction xs with
  | nil => rfl
  | cons a t ih => simp [forEachLog, ih]

/-- A notification pass whose callbacks all have empty bodies visits
exactly the ids in the remaining slots, in order, and raises nothing. -/
theorem forEachGo_plain (beh : Nat → List LAct) (hbeh : ∀ l, beh l = []) :
    ∀ (fuel i : Nat) (s : CounterSt), s.listeners.length ≤ i + fuel →
    forEachGo beh fuel i s
      = ({ s with log := s.log ++ forEachLog (s.listeners.drop i) }, false) := by
  intro fuel
  induction fuel with
  | zero =>
    intro i s hlen
    have hd : s.listeners.drop i = [] := List.drop_eq_nil_of_le (by omega)
    show (s, false) = _
    rw [hd]
    simp [forEachLog]
  | succ n ih =>
    intro i s hlen
    cases hget : s.listeners[i]? with
    | none =>
      have hle : s.listeners.length ≤ i := List.getElem?_eq_none_iff.mp hget
      have hd : s.listeners.drop i = [] := List.drop_eq_nil_of_le hle
      rw [forEachGo, hget, hd]
      simp [forEachLog]
    | some slot =>
      have hlt : i < s.listeners.length := by
        by_contra hc
        rw [List.getElem?_eq_none (by omega)] at hget
        exact Option.noConfusion hget
      have hdrop : s.listeners.drop i = slot :: s.listeners.drop (i + 1) := by
        rw [List.drop_eq_getElem_cons hlt]
        congr 1
        have h2 := List.getElem?_eq_getElem hlt
        rw [hget] at h2
        exact Option.some.inj h2.symm
      cases slot with
      | none =>
        have hrec := ih (i + 1) s (by omega)
        rw [forEachGo, hget, hrec, hdrop]
        simp [forEachLog]
      | some l =>
        have hrec := ih (i + 1) { s with log := s.log ++ [l] } (by simp; omega)
        simp only at hrec
        rw [forEachGo, hget]
        simp only [hbeh, runActs]
        rw [hrec, hdrop]
        simp [forEachLog]

/-- Subscribe a list of listener callbacks to the counter store, one
`subscribe` call each, left to right. -/
def subscribeAll (ls : List Nat) (s : CounterSt) : CounterSt :=
  ls.foldl (fun acc l => subscribe l acc) s

/-- Subscribing pairwise-distinct fresh callbacks appends the matching
slots in call order. -/
theorem subscribeAll_spec (ls : List Nat) : ∀ s : CounterSt,
    (∀ l ∈ ls, some l ∉ s.listeners) → ls.Nodup →
    subscribeAll ls s = { s with listeners := s.listeners ++ ls.map some } := by
  induction ls with
  | nil =>
    intro s _ _
    cases s
    simp [subscribeAll]
  | cons l t ih =>
    intro s hfresh hnd
    have hl : some l ∉ s.listeners := hfresh l (by simp)
    have hnds := List.nodup_cons.mp hnd
    have hstep : subscribe l s
        = { s with listeners := s.listeners ++ [some l] } := by
      simp [subscribe, addS, hl]
    have hfresh2 : ∀ x ∈ t, some x ∉ s.listeners ++ [some l] := by
      intro x hx
      simp only [List.mem_append, List.mem_singleton]
      push_neg
      refine ⟨hfresh x (by simp [hx]), ?_⟩
      intro hc
      exact hnds.1 (by simpa using (Option.some.inj hc) ▸ hx)
    have hrec := ih { s with listeners := s.listeners ++ [some l] } hfresh2 hnds.2
    calc subscribeAll (l :: t) s = subscribeAll t (subscribe l s) := rfl
      _ = subscribeAll t { s with listeners := s.listeners ++ [some l] } := by rw [hstep]
      _ = { s with listeners := (s.listeners ++ [some l]) ++ t.map some } := hrec
      _ = { s with listeners := s.listeners ++ (l :: t).map some } := by simp

/-- C1: starting from the freshly constructed counter store, any finite
sequence of `increment`/`decrement`/`reset` operations leaves
`getSnapshot()` equal to the fold of the mutators (`+1`, `-1`,
constantly `0`) over the initial value `0` in call order; the empty
sequence reads back the initial value `0`; and every update succeeds
(no exception) even though zero listeners are registered. -/
theorem counter_fold_correct (beh : Nat → List LAct) (fuel : Nat) (ops : List Op) :
    getSnapshot (runOps beh fuel ops initialStore).1
        = ops.foldl (fun v op => applyMut op v) 0
    ∧ (runOps beh fuel ops initialStore).2 = false
    ∧ getSnapshot (runOps beh fuel [] initialStore).1 = 0 := by
  have h := runOps_no_listeners beh fuel ops 0 []
  have h0 := runOps_no_listeners beh fuel [] 0 []
  refine ⟨?_, ?_, ?_⟩
  · simp [initialStore, h, getSnapshot]
  · simp [initialStore, h]
  · simp [initialStore, h0, getSnapshot]

/-!
The online-status store `createOnlineStore` (lines 276-312 of
`01-basic-components.tsx`). All subscriptions share one `isOnline`
variable and one `listeners` set, but every call to `subscribe`
additionally installs its own fresh `handleOnline`/`handleOffline` pair
as `window` event listeners; each such handler sets `isOnline` and then
notifies the whole shared listener set. The unsubscribe handle returned
by `subscribe` removes that subscription's listener from the set and
removes exactly its own handler pair from the window. We tag each
installed handler pair by the id of the subscription that created it;
the store's listeners here only record their invocation (the React
callbacks passed by `useSyncExternalStore` do not mutate the set).
-/

/-- State of the online-status store together with the window's list of
installed handler pairs and a log of listener invocations. -/
structure OnlineSt where
  isOnline : Bool
  listeners : SetData
  handlers : List Nat
  log : List Nat
deriving DecidableEq, Repr

/-- `subscribe(listener)` of the online store: adds the listener to the
shared set and installs a fresh online/offline handler pair. -/
def subscribeOnline (l : Nat) (s : OnlineSt) : OnlineSt :=
  { s with listeners := addS s.listeners l, handlers := s.handlers ++ [l] }

/-- The unsubscribe handle returned by the online store's `subscribe`:
deletes the listener from the shared set and removes exactly the handler
pair installed by that `subscribe` call. -/
def unsubscribeOnline (l : Nat) (s : OnlineSt) : OnlineSt :=
  { s with listeners := delS s.listeners l, handlers := s.handlers.erase l }

/-- One installed `handleOnline` running: sets `isOnline := true`, then
`listeners.forEach((l) => l())` over the shared set. -/
def handleOnlineEvt (s : OnlineSt) : OnlineSt :=
  { s with isOnline := true, log := s.log ++ forEachLog s.listeners }

/-- A single `online` window event: the window dispatches to every
installed `handleOnline` handler, in installation order. -/
def fireOnline (s : OnlineSt) : OnlineSt :=
  s.handlers.foldl (fun acc _ => handleOnlineEvt acc) s

/-- The online store as `createOnlineStore` builds it (`b` is the
initial `navigator.onLine` reading): no listeners, no handlers. -/
def initialOnline (b : Bool) : OnlineSt :=
  { isOnline := b, listeners := [], handlers := [], log := [] }

/-- Subscribe a list of callbacks to the online store, one `subscribe`
call each, left to right. -/
def subscribeList (ls : List Nat) (s : OnlineSt) : OnlineSt :=
  ls.foldl (fun acc l => subscribeOnline l acc) s

/-- Dispatching an event to a list of handlers appends one full pass
over the shared listener set per handler and touches neither the
listener set nor the handler list. -/
theorem foldl_handleOnlineEvt (hs : List Nat) : ∀ s : OnlineSt,
    (hs.foldl (fun acc _ => handleOnlineEvt acc) s).log
        = s.log ++ (List.replicate hs.length (forEachLog s.listeners)).flatten
    ∧ (hs.foldl (fun acc _ => handleOnlineEvt acc) s).listeners = s.listeners
    ∧ (hs.foldl (fun acc _ => handleOnlineEvt acc) s).handlers = s.handlers := by
  induction hs with
  | nil => intro s; simp
  | cons h t ih =>
    intro s
    obtain ⟨h1, h2, h3⟩ := ih (handleOnlineEvt s)
    refine ⟨?_, ?_, ?_⟩
    · rw [List.foldl_cons, h1]
      simp [handleOnlineEvt, List.replicate_succ]
    · rw [List.foldl_cons, h2]; rfl
    · rw [List.foldl_cons, h3]; rfl

/-- Occurrence count in a concatenation of `n` copies of a list. -/
theorem count_flatten_replicate (n : Nat) (x : List Nat) (a : Nat) :
    ((List.replicate n x).flatten).count a = n * x.count a := by
  induction n with
  | zero => simp
  | succ m ih =>
    rw [List.replicate_succ]
    simp [ih, Nat.succ_mul]
    omega

/-- Subscribing pairwise-distinct fresh callbacks to the online store
appends their slots to the shared set and their handler pairs to the
window, in call order. -/
theorem subscribeList_spec (ls : List Nat) : ∀ s : OnlineSt,
    (∀ l ∈ ls, some l ∉ s.listeners) → ls.Nodup →
    subscribeList ls s
      = { s with listeners := s.listeners ++ ls.map some,
                 handlers := s.handlers ++ ls } := by
  induction ls with
  | nil =>
    intro s _ _
    show s = _
    simp
  | cons l t ih =>
    intro s hfresh hnd
    have hl : some l ∉ s.listeners := hfresh l (by simp)
    have hnds := List.nodup_cons.mp hnd
    have hstep : subscribeOnline l s
        = { s with listeners := s.listeners ++ [some l],
                   handlers := s.handlers ++ [l] } := by
      simp [subscribeOnline, addS, hl]
    have hfresh2 : ∀ x ∈ t,
        some x ∉ s.listeners ++ [some l] := by
      intro x hx
      simp only [List.mem_append, List.mem_singleton]
      push_neg
      refine ⟨hfresh x (by simp [hx]), ?_⟩
      intro hc
      exact hnds.1 (by simpa using (Option.some.inj hc) ▸ hx)
    have hrec := ih { s with listeners := s.listeners ++ [some l],
                             handlers := s.handlers ++ [l] } hfresh2 hnds.2
    calc subscribeList (l :: t) s = subscribeList t (subscribeOnline l s) := rfl
      _ = subscribeList t { s with listeners := s.listeners ++ [some l],
                                   handlers := s.handlers ++ [l] } := by rw [hstep]
      _ = { s with listeners := (s.listeners ++ [some l]) ++ t.map some,
                   handlers := (s.handlers ++ [l]) ++ t } := hrec
      _ = { s with listeners := s.listeners ++ (l :: t).map some,
                   handlers := s.handlers ++ (l :: t) } := by simp

/-- Deleting one callback from the set leaves the membership of every
other callback unchanged. -/
theorem mem_delS (l x : Nat) (h : x ≠ l) (xs : SetData) :
    some x ∈ delS xs l ↔ some x ∈ xs := by
  unfold delS
  rw [List.mem_map]
  constructor
  · rintro ⟨o, ho, heq⟩
    by_cases hol : o = some l
    · subst hol; simp at heq
    · rw [if_neg hol] at heq
      exact heq ▸ ho
  · intro hm
    refine ⟨some x, hm, ?_⟩
    rw [if_neg (by simp [h])]

/-- The counter store after subscribing the distinct callbacks
`0, …, N-1`, one `subscribe` call each. -/
theorem subscribeAll_range (N : Nat) :
    subscribeAll (List.range N) initialStore
      = { count := 0, listeners := (List.range N).map some, log := [] } := by
  rw [subscribeAll_spec (List.range N) initialStore (by simp [initialStore])
    (List.nodup_range N)]
  simp [initialStore]

/-- The online store after subscribing the distinct callbacks
`0, …, N-1`, one `subscribe` call each. -/
theorem subscribeList_range (N : Nat) (b : Bool) :
    subscribeList (List.range N) (initialOnline b)
      = { isOnline := b, listeners := (List.range N).map some,
          handlers := List.range N, log := [] } := by
  rw [subscribeList_spec (List.range N) (initialOnline b) (by simp [initialOnline])
    (List.nodup_range N)]
  simp [initialOnline]

/-- A single `online` event on the online store with `N` active
subscriptions invokes every subscribed listener once per installed
handler pair: `N` times each. -/
theorem fireOnline_range_count (N : Nat) (b : Bool) :
    ∀ l, l < N →
    (fireOnline (subscribeList (List.range N) (initialOnline b))).log.count l = N := by
  intro l hl
  rw [subscribeList_range]
  have h := (foldl_handleOnlineEvt (List.range N)
    { isOnline := b, listeners := (List.range N).map some,
      handlers := List.range N, log := [] }).1
  simp only [fireOnline] at *
  rw [h]
  simp only [List.nil_append, forEachLog_map_some, List.length_range]
  rw [count_flatten_replicate]
  rw [List.count_eq_one_of_mem (List.nodup_range N) (List.mem_range.mpr hl)]
  omega

/-- C2 counterexample: with two subscriptions active on the online-status
store, a single `online` event invokes listener `0` twice — once per
installed handler pair — not exactly once as the claim requires. -/
theorem notify_once_cex :
    (fireOnline (subscribeList [0, 1] (initialOnline false))).log.count 0 = 2
    ∧ ¬ ((fireOnline (subscribeList [0, 1] (initialOnline false))).log.count 0 = 1) := by
  decide

/-- C2 amended: for the counter store, with `N` plain listeners
subscribed (callbacks with empty bodies), one update invokes each
listener exactly once, synchronously, and raises nothing; for the
online-status store, one online/offline change while `N` subscriptions
are active invokes each registered listener `N` times (once per
installed handler pair), not once. -/
theorem notify_exactly_once_amended (beh : Nat → List LAct) (N fuel : Nat) (b : Bool)
    (hbeh : ∀ l, beh l = []) (hf : N ≤ fuel) :
    ((runOp beh fuel Op.inc (subscribeAll (List.range N) initialStore)).1.log
        = List.range N)
    ∧ (∀ l, l < N →
        ((runOp beh fuel Op.inc (subscribeAll (List.range N) initialStore)).1.log.count l
          = 1))
    ∧ ((runOp beh fuel Op.inc (subscribeAll (List.range N) initialStore)).2 = false)
    ∧ (∀ l, l < N →
        (fireOnline (subscribeList (List.range N) (initialOnline b))).log.count l = N) := by
  have hpass := forEachGo_plain beh hbeh fuel 0
    { count := (0 : Int) + 1, listeners := (List.range N).map some, log := [] }
    (by simpa using hf)
  have hrun : runOp beh fuel Op.inc (subscribeAll (List.range N) initialStore)
      = ({ count := (0 : Int) + 1, listeners := (List.range N).map some,
           log := forEachLog ((List.range N).map some) }, false) := by
    rw [subscribeAll_range]
    simp only [runOp, notifyListeners]
    rw [hpass]
    simp
  refine ⟨?_, ?_, ?_, fireOnline_range_count N b⟩
  · rw [hrun]; simp [forEachLog_map_some]
  · intro l hl
    rw [hrun]
    simp only [forEachLog_map_some]
    exact List.count_eq_one_of_mem (List.nodup_range N) (List.mem_range.mpr hl)
  · rw [hrun]

/-- Witness for the C2 amended theorem: two plain listeners. -/
theorem notify_exactly_once_amended_witness :
    (runOp (fun _ => []) 2 Op.inc (subscribeAll (List.range 2) initialStore)).1.log
      = List.range 2 :=
  (notify_exactly_once_amended (fun _ => []) 2 2 false (fun _ => rfl) (by decide)).1

/-- C10: in the online-status store with `N` active subscriptions, each
call to `subscribe` installed its own window handler pair, each of which
notifies the whole shared listener set, so a single `online` event
invokes every registered listener `N` times (once per installed handler
pair); and running one subscriber's unsubscribe handle removes exactly
that subscriber's handler pair and set entry, leaving every other
subscriber's handler pair installed and set entry registered. -/
theorem online_fanout (N k : Nat) (b : Bool) (hk : k < N) :
    (∀ l, l < N →
      (fireOnline (subscribeList (List.range N) (initialOnline b))).log.count l = N)
    ∧ (unsubscribeOnline k (subscribeList (List.range N) (initialOnline b))).handlers
        = (List.range N).erase k
    ∧ k ∉ (unsubscribeOnline k (subscribeList (List.range N) (initialOnline b))).handlers
    ∧ (∀ j, j < N → j ≠ k →
        j ∈ (unsubscribeOnline k (subscribeList (List.range N) (initialOnline b))).handlers
        ∧ some j ∈
            (unsubscribeOnline k (subscribeList (List.range N) (initialOnline b))).listeners) := by
  rw [subscribeList_range]
  refine ⟨?_, rfl, ?_, ?_⟩
  · have h := fireOnline_range_count N b
    rw [subscribeList_range] at h
    exact h
  · intro hc
    have := ((List.nodup_range N).mem_erase_iff.mp hc).1
    exact this rfl
  · intro j hj hjk
    refine ⟨?_, ?_⟩
    · exact (List.mem_erase_of_ne hjk).mpr (List.mem_range.mpr hj)
    · exact (mem_delS k j hjk ((List.range N).map some)).mpr
        (List.mem_map_of_mem some (List.mem_range.mpr hj))

/-- Witness for the C10 theorem: two subscriptions, unsubscribing the
second one. -/
theorem online_fanout_witness :
    (unsubscribeOnline 1 (subscribeList (List.range 2) (initialOnline false))).handlers
      = (List.range 2).erase 1 :=
  (online_fanout 2 1 false (by decide)).2.1

/-- A probe callback whose body subscribes callback `1`; every other
callback does nothing. -/
def behAdd : Nat → List LAct := fun l => if l = 0 then [LAct.sub 1] else []

/-- A probe callback whose body runs the unsubscribe handle of
callback `1`; every other callback does nothing. -/
def behRemove : Nat → List LAct := fun l => if l = 0 then [LAct.unsub 1] else []

/-- C3 counterexample: `notifyListeners` iterates the live `Set`, not a
snapshot. With only callback `0` registered and `0` subscribing `1`
during the pass, `1` is invoked in that same pass (log `[0, 1]`, not
`[0]`); and with `0` and `1` registered and `0` unsubscribing `1`
during the pass, the not-yet-visited `1` is skipped (log `[0]`, not
`[0, 1]`). -/
theorem notify_snapshot_cex :
    ((runOp behAdd 3 Op.inc { count := 0, listeners := [some 0], log := [] }).1.log
        = [0, 1]
      ∧ ¬ ((runOp behAdd 3 Op.inc
          { count := 0, listeners := [some 0], log := [] }).1.log = [0]))
    ∧ ((runOp behRemove 3 Op.inc
          { count := 0, listeners := [some 0, some 1], log := [] }).1.log = [0]
      ∧ ¬ ((runOp behRemove 3 Op.inc
          { count := 0, listeners := [some 0, some 1], log := [] }).1.log = [0, 1])) := by
  decide

/-- C3 amended: the source iterates the live `Set` during notification
(no snapshot is taken), so per the ECMAScript iteration order a callback
subscribed from within a listener is invoked already in the current
pass; a callback whose unsubscribe handle is run from within a listener
before it is visited is not invoked in the current pass; and such an
unsubscribed callback is not invoked in later passes either. -/
theorem notify_live_iteration (beh beh2 : Nat → List LAct) (a b : Nat) (hab : a ≠ b)
    (ha : beh a = [LAct.sub b]) (hb : beh b = [])
    (ha2 : beh2 a = [LAct.unsub b]) (c : Int) (lg : List Nat) :
    ((notifyListeners beh 3 { count := c, listeners := [some a], log := lg }).1.log
        = lg ++ [a, b])
    ∧ ((notifyListeners beh2 3
        { count := c, listeners := [some a, some b], log := lg }).1.log = lg ++ [a])
    ∧ ((notifyListeners beh2 3
        { count := c, listeners := [some a, some b], log := lg }).1.listeners
        = [some a, none])
    ∧ ((notifyListeners beh2 3
        ((notifyListeners beh2 3
          { count := c, listeners := [some a, some b], log := lg }).1)).1.log
        = (lg ++ [a]) ++ [a]) := by
  have hba : b ≠ a := hab.symm
  have h1 : notifyListeners beh 3 { count := c, listeners := [some a], log := lg }
      = ({ count := c, listeners := [some a, some b], log := lg ++ [a] ++ [b] },
         false) := by
    simp [notifyListeners, forEachGo, ha, hb, runActs, addS, hba]
  have h2 : notifyListeners beh2 3
        { count := c, listeners := [some a, some b], log := lg }
      = ({ count := c, listeners := [some a, none], log := lg ++ [a] }, false) := by
    simp [notifyListeners, forEachGo, ha2, runActs, delS, hba, hab]
  have h3 : notifyListeners beh2 3
        { count := c, listeners := [some a, none], log := lg ++ [a] }
      = ({ count := c, listeners := [some a, none], log := (lg ++ [a]) ++ [a] },
         false) := by
    simp [notifyListeners, forEachGo, ha2, runActs, delS, hba, hab]
  refine ⟨?_, ?_, ?_, ?_⟩
  · rw [h1]; simp
  · rw [h2]
  · rw [h2]
  · rw [h2, h3]

/-- Witness for the C3 amended theorem at callbacks `0` and `1`. -/
theorem notify_live_iteration_witness :
    (notifyListeners behAdd 3 { count := 0, listeners := [some 0], log := [] }).1.log
      = [] ++ [0, 1] :=
  (notify_live_iteration behAdd behRemove 0 1 (by decide) rfl rfl rfl 0 []).1

/-- A probe callback set where callback `1` raises and every other
callback does nothing. -/
def behFault : Nat → List LAct := fun l => if l = 1 then [LAct.lthrow] else []

/-- C4 counterexample: with callbacks `0`, `1`, `2` registered and `1`
raising, an `increment` invokes `0` and `1` but never `2` (`Set.forEach`
rethrows immediately), and the exception escapes the update; only the
value-remains-updated part of the claim holds. -/
theorem notify_fault_cex :
    ((runOp behFault 3 Op.inc
        { count := 0, listeners := [some 0, some 1, some 2], log := [] }).1.log
      = [0, 1])
    ∧ ¬ (2 ∈ (runOp behFault 3 Op.inc
        { count := 0, listeners := [some 0, some 1, some 2], log := [] }).1.log)
    ∧ ((runOp behFault 3 Op.inc
        { count := 0, listeners := [some 0, some 1, some 2], log := [] }).2 = true)
    ∧ ((runOp behFault 3 Op.inc
        { count := 0, listeners := [some 0, some 1, some 2], log := [] }).1.count = 1) := by
  decide

/-- C4 amended: when a listener raises during the notification pass of an
update, the listeners visited before it have already been invoked, the
listeners registered after it are NOT invoked (the iteration aborts),
the store's value does remain the newly updated value, and the
exception propagates out of the update operation. -/
theorem notify_fault_aborts (beh : Nat → List LAct) (a b c : Nat)
    (ha : beh a = []) (hb : beh b = [LAct.lthrow]) (fuel : Nat) (cnt : Int)
    (lg : List Nat) :
    runOp beh (fuel + 2) Op.inc
        { count := cnt, listeners := [some a, some b, some c], log := lg }
      = ({ count := cnt + 1, listeners := [some a, some b, some c],
           log := lg ++ [a] ++ [b] }, true) := by
  simp [runOp, notifyListeners, forEachGo, ha, hb, runActs]

/-- Witness for the C4 amended theorem at callbacks `0`, `1`, `2`. -/
theorem notify_fault_aborts_witness :
    runOp behFault (1 + 2) Op.inc
        { count := 0, listeners := [some 0, some 1, some 2], log := [] }
      = ({ count := 0 + 1, listeners := [some 0, some 1, some 2],
           log := [] ++ [0] ++ [1] }, true) :=
  notify_fault_aborts behFault 0 1 2 rfl rfl 1 0 []

/-- After `add`, the element is in the set. -/
theorem mem_addS_self (xs : SetData) (l : Nat) : some l ∈ addS xs l := by
  unfold addS
  split
  · assumption
  · simp

/-- `Set.add` of an element already present is a no-op, so adding twice
equals adding once. -/
theorem addS_idem (xs : SetData) (l : Nat) : addS (addS xs l) l = addS xs l := by
  have h := mem_addS_self xs l
  rw [addS, if_pos h]

/-- `Set.delete` of an element already deleted is a no-op. -/
theorem delS_idem (xs : SetData) (l : Nat) : delS (delS xs l) l = delS xs l := by
  unfold delS
  rw [List.map_map]
  apply List.map_congr_left
  intro o _
  by_cases h : o = some l <;> simp [h]

/-- C5 counterexample: `listeners` is a `Set<() => void>`, so subscribing
the same callback (identity `0`) twice leaves a single registration: one
update invokes it once, not twice, and running the unsubscribe handle
returned by either `subscribe` call removes the sole registration, after
which an update does not invoke the callback at all. -/
theorem subscribe_twice_cex :
    ((subscribe 0 (subscribe 0 initialStore)).listeners = [some 0])
    ∧ ((runOp (fun _ => []) 1 Op.inc
        (subscribe 0 (subscribe 0 initialStore))).1.log.count 0 = 1)
    ∧ ¬ ((runOp (fun _ => []) 1 Op.inc
        (subscribe 0 (subscribe 0 initialStore))).1.log.count 0 = 2)
    ∧ ((runOp (fun _ => []) 1 Op.inc
        (unsubscribeH 0 (subscribe 0 (subscribe 0 initialStore)))).1.log.count 0 = 0) := by
  decide

/-- C5 amended: subscribing the same callback twice registers it once —
the `Set` deduplicates by callback identity. `subscribe` is idempotent
on the listener set; after the double subscription one update invokes
the callback exactly once; and running the unsubscribe handle returned
by either of the two `subscribe` calls (both delete the same identity)
removes the single registration, so a subsequent update does not invoke
the callback. -/
theorem subscribe_twice_amended (beh : Nat → List LAct) (l : Nat) (hl : beh l = [])
    (s : CounterSt) :
    subscribe l (subscribe l s) = subscribe l s
    ∧ ((runOp beh 1 Op.inc (subscribe l (subscribe l initialStore))).1.log = [l])
    ∧ ((runOp beh 1 Op.inc
        (unsubscribeH l (subscribe l (subscribe l initialStore)))).1.log = []) := by
  have hsub : subscribe l (subscribe l initialStore)
      = { count := 0, listeners := [some l], log := [] } := by
    simp [subscribe, initialStore, addS]
  refine ⟨?_, ?_, ?_⟩
  · simp [subscribe, addS_idem]
  · rw [hsub]
    simp [runOp, notifyListeners, forEachGo, hl, runActs]
  · rw [hsub]
    simp [unsubscribeH, delS, runOp, notifyListeners, forEachGo]

/-- Witness for the C5 amended theorem at callback `0`. -/
theorem subscribe_twice_amended_witness :
    (runOp (fun _ => []) 1 Op.inc (subscribe 0 (subscribe 0 initialStore))).1.log = [0] :=
  (subscribe_twice_amended (fun _ => []) 0 rfl initialStore).2.1

/-- C6: running an unsubscribe handle a second (or any further) time is
a no-op: the store state is unchanged by the repeat call (so nothing is
raised and no other listener is affected), every unsubscribe leaves the
stored value unchanged, and the registration of every other callback is
untouched. -/
theorem unsubscribe_idem (l x : Nat) (s : CounterSt) (hx : x ≠ l) :
    unsubscribeH l (unsubscribeH l s) = unsubscribeH l s
    ∧ (unsubscribeH l s).count = s.count
    ∧ (unsubscribeH l (unsubscribeH l s)).count = s.count
    ∧ (some x ∈ (unsubscribeH l (unsubscribeH l s)).listeners ↔ some x ∈ s.listeners) := by
  refine ⟨?_, rfl, rfl, ?_⟩
  · simp [unsubscribeH, delS_idem]
  · simp only [unsubscribeH]
    rw [mem_delS l x hx, mem_delS l x hx]

/-- Witness for the C6 theorem: callbacks `0` and `1` registered,
unsubscribing `0` twice. -/
theorem unsubscribe_idem_witness :
    unsubscribeH 0 (unsubscribeH 0 (subscribe 1 (subscribe 0 initialStore)))
      = unsubscribeH 0 (subscribe 1 (subscribe 0 initialStore)) :=
  (unsubscribe_idem 0 1 (subscribe 1 (subscribe 0 initialStore)) (by decide)).1

/-- C7: a listener unsubscribed before an update is not invoked by that
update: after subscribe L1, subscribe L2, unsubscribe L1, one
`increment` produces exactly one invocation, of L2 — L2's call count is
one and L1's is zero. -/
theorem unsubscribed_not_invoked (beh : Nat → List LAct) (a b : Nat) (hab : a ≠ b)
    (hb : beh b = []) :
    ((runOp beh 2 Op.inc
        (unsubscribeH a (subscribe b (subscribe a initialStore)))).1.log = [b])
    ∧ ((runOp beh 2 Op.inc
        (unsubscribeH a (subscribe b (subscribe a initialStore)))).1.log.count a = 0)
    ∧ ((runOp beh 2 Op.inc
        (unsubscribeH a (subscribe b (subscribe a initialStore)))).1.log.count b = 1) := by
  have hba : b ≠ a := hab.symm
  have hst : unsubscribeH a (subscribe b (subscribe a initialStore))
      = { count := 0, listeners := [none, some b], log := [] } := by
    simp [subscribe, unsubscribeH, initialStore, addS, delS, hba, hab]
  have hrun : runOp beh 2 Op.inc { count := 0, listeners := [none, some b], log := [] }
      = ({ count := 0 + 1, listeners := [none, some b], log := [b] }, false) := by
    simp [runOp, notifyListeners, forEachGo, hb, runActs]
  refine ⟨?_, ?_, ?_⟩
  · rw [hst, hrun]
  · rw [hst, hrun]
    simp [List.count_cons, hba]
  · rw [hst, hrun]
    simp

/-- Witness for the C7 theorem at callbacks `0` and `1`. -/
theorem unsubscribed_not_invoked_witness :
    (runOp (fun _ => []) 2 Op.inc
        (unsubscribeH 0 (subscribe 1 (subscribe 0 initialStore)))).1.log = [1] :=
  (unsubscribed_not_invoked (fun _ => []) 0 1 (by decide) rfl).1

/-- C8: an update that replaces the value with an equal value still
notifies: `reset` on a counter already at `0` with one registered
listener invokes that listener exactly once more, raises nothing, and
`getSnapshot()` still returns `0`. -/
theorem reset_same_value_notifies (beh : Nat → List LAct) (l : Nat) (hl : beh l = [])
    (lg : List Nat) :
    (runOp beh 1 Op.reset { count := 0, listeners := [some l], log := lg })
      = ({ count := 0, listeners := [some l], log := lg ++ [l] }, false)
    ∧ getSnapshot (runOp beh 1 Op.reset
        { count := 0, listeners := [some l], log := lg }).1 = 0 := by
  have h : runOp beh 1 Op.reset { count := 0, listeners := [some l], log := lg }
      = ({ count := 0, listeners := [some l], log := lg ++ [l] }, false) := by
    simp [runOp, notifyListeners, forEachGo, hl, runActs]
  exact ⟨h, by rw [h]; rfl⟩

/-- Witness for the C8 theorem at callback `0`. -/
theorem reset_same_value_notifies_witness :
    (runOp (fun _ => []) 1 Op.reset { count := 0, listeners := [some 0], log := [] })
      = ({ count := 0, listeners := [some 0], log := [] ++ [0] }, false) :=
  (reset_same_value_notifies (fun _ => []) 0 rfl []).1

/-- A listener body never changes `count`: its effects touch only the
listener set (and the exception flag). -/
theorem runActs_count (as : List LAct) : ∀ s : CounterSt,
    (runActs as s).1.count = s.count := by
  induction as with
  | nil => intro s; rfl
  | cons a t ih => intro s; cases a <;> simp [runActs, ih]

/-- A notification pass never changes `count`. -/
theorem forEachGo_count (beh : Nat → List LAct) :
    ∀ (fuel i : Nat) (s : CounterSt), (forEachGo beh fuel i s).1.count = s.count := by
  intro fuel
  induction fuel with
  | zero => intro i s; rfl
  | succ n ih =>
    intro i s
    cases hget : s.listeners[i]? with
    | none => rw [forEachGo, hget]
    | some slot =>
      cases slot with
      | none =>
        rw [forEachGo, hget]
        exact ih (i + 1) s
      | some l =>
        rw [forEachGo, hget]
        dsimp only
        rcases hr : runActs (beh l) { s with log := s.log ++ [l] } with ⟨s2, th⟩
        have hc : s2.count = s.count := by
          have h2 := runActs_count (beh l) { s with log := s.log ++ [l] }
          rw [hr] at h2
          exact h2
        cases th
        · exact (ih (i + 1) s2).trans hc
        · exact hc

/-- C9: `getSnapshot()` reads `count` and nothing writes it except the
update operations: `subscribe` and the unsubscribe handles leave the
value unchanged, a notification pass leaves the value unchanged (so no
listener can alter it), and each update operation changes the value
exactly by its own mutator. (`getSnapshot` is a pure function of the
state in this embedding, so reading it any number of times changes
neither the value nor the listener set.) -/
theorem getSnapshot_pure (s : CounterSt) (l : Nat) (beh : Nat → List LAct)
    (fuel : Nat) :
    getSnapshot s = s.count
    ∧ (subscribe l s).count = s.count
    ∧ (unsubscribeH l s).count = s.count
    ∧ (subscribe l s).log = s.log
    ∧ (unsubscribeH l s).log = s.log
    ∧ (notifyListeners beh fuel s).1.count = s.count
    ∧ (∀ op, (runOp beh fuel op s).1.count = applyMut op s.count) := by
  refine ⟨rfl, rfl, rfl, rfl, rfl, forEachGo_count beh fuel 0 s, ?_⟩
  intro op
  cases op <;> simp [runOp, applyMut, notifyListeners, forEachGo_count]
